import Mathlib

/-!
Verification of the command/executor layer of `admin/aws.py` (flocker).

The development shallowly embeds the in-memory simulated backend (`FakeAWS`
and `FakeAWSState`), the content-type table and header selection of the real
`CopyS3Keys` executor, and the two composite operations
(`perform_download_s3_key_recursively`, `perform_upload_s3_key_recursively`).

Modelling choices:
- pyrsistent `PMap` values are embedded as association lists
  (`List (String × α)`) with lookup/update/remove operations whose observable
  behaviour mirrors the map operations used by the source, including the
  no-op behaviour of `transform(..., discard)` on an absent key.
- Python `unicode` values stored in buckets, which may be plain strings or
  `ContentTypeUnicode` instances (a `unicode` subclass carrying a
  `content_type` attribute and comparing equal to its text), are embedded as
  a `BucketValue` record of the text plus an optional content type; every
  observation that treats the value as a string uses the `text` field.
- Python exceptions (`KeyError`, twisted `InsecurePath`) are embedded as an
  `Except`/`Option` error value; a raising code path returns the error.
- The filesystem is a collaborator outside `src/`: file reads and writes are
  embedded by passing content in and returning the content written out.
-/

set_option linter.unusedVariables false

/-- Association-list lookup, mirroring `PMap.__getitem__`/`PMap.get`:
the binding for `k`, if any. -/
def lookupA {α : Type} (m : List (String × α)) (k : String) : Option α :=
  match m with
  | [] => none
  | (k', v) :: rest => if k' = k then some v else lookupA rest k

/-- Association-list update, mirroring `PMap.set` via `transform`: replace the
binding for `k`, or append one if absent. -/
def setA {α : Type} (m : List (String × α)) (k : String) (v : α) : List (String × α) :=
  match m with
  | [] => [(k, v)]
  | (k', v') :: rest => if k' = k then (k, v) :: rest else (k', v') :: setA rest k v

/-- Whether the map binds `k`, mirroring `key in pmap`. -/
def hasKeyA {α : Type} (m : List (String × α)) (k : String) : Bool :=
  m.any (fun p => p.1 == k)

/-- Association-list removal, mirroring `PMap.remove`. -/
def removeA {α : Type} (m : List (String × α)) (k : String) : List (String × α) :=
  m.filter (fun p => p.1 != k)

/-- Python `str.startswith`, embedded as list-prefix of the character data. -/
def startswith (s pre : String) : Bool := decide (pre.data <+: s.data)

/-- Python `str.endswith`, embedded as list-suffix of the character data. -/
def endswith (s suf : String) : Bool := decide (suf.data <:+ s.data)

/-- Python `os.path.join` for two components, as used by
`perform_download_s3_key_recursively`. -/
def os_path_join (a b : String) : String :=
  if startswith b "/" then b
  else if a = "" then b
  else if endswith a "/" then a ++ b
  else a ++ "/" ++ b

/-- Errors surfaced by the embedded executors: Python `KeyError` and
twisted's `InsecurePath`. -/
inductive AwsErr where
  | keyError (k : String)
  | insecurePath (k : String)
deriving DecidableEq

instance {ε α : Type} [DecidableEq ε] [DecidableEq α] : DecidableEq (Except ε α) := fun x y =>
  match x, y with
  | .ok a, .ok b => decidable_of_iff (a = b) (by simp)
  | .error a, .error b => decidable_of_iff (a = b) (by simp)
  | .ok _, .error _ => isFalse (fun h => by cases h)
  | .error _, .ok _ => isFalse (fun h => by cases h)

/-- Routing rules for one bucket: the spec represents them as a mapping from
key prefixes to replacements; the executors treat them opaquely. -/
def RoutingRules : Type := List (String × String)

instance : DecidableEq RoutingRules := by
  unfold RoutingRules
  infer_instance

/-- The `CreateCloudFrontInvalidation` intent: a CNAME and the paths to
invalidate. -/
structure CreateCloudFrontInvalidation where
  cname : String
  paths : List String
deriving DecidableEq

/-- A value stored in a fake S3 bucket: a Python `unicode`, possibly a
`ContentTypeUnicode` carrying a `content_type` attribute.  A
`ContentTypeUnicode` compares equal to the plain string of the same text, so
every string-level observation goes through `text`. -/
structure BucketValue where
  text : String
  content_type : Option String
deriving DecidableEq

/-- The `ContentTypeUnicode(value, content_type)` constructor. -/
def ContentTypeUnicode (value : String) (ct : String) : BucketValue :=
  { text := value, content_type := some ct }

/-- A plain `unicode` bucket value with no content-type attribute. -/
def plainValue (value : String) : BucketValue :=
  { text := value, content_type := none }

/-- The immutable state of `FakeAWS` (`FakeAWSState` in the source). -/
structure FakeAWSState where
  routing_rules : List (String × RoutingRules)
  s3_buckets : List (String × List (String × BucketValue))
  error_key : List (String × String)
  cloudfront_invalidations : List CreateCloudFrontInvalidation
deriving DecidableEq

/-- The empty initial state (no buckets, rules, error keys or
invalidations). -/
def emptyState : FakeAWSState :=
  { routing_rules := [], s3_buckets := [], error_key := [], cloudfront_invalidations := [] }

/-- The contents of bucket `b`, with an absent bucket read as the empty
mapping (used only to state lookups uniformly; the executors that index
`s3_buckets[b]` directly still fail on an absent bucket). -/
def bucketContentsOf (s : FakeAWSState) (b : String) : List (String × BucketValue) :=
  (lookupA s.s3_buckets b).getD []

/-- `state.transform(['s3_buckets', bucket, key], content)`: set one key of
one bucket, creating the bucket when absent. -/
def setBucketKey (s : FakeAWSState) (b k : String) (v : BucketValue) : FakeAWSState :=
  { s with s3_buckets := setA s.s3_buckets b (setA (bucketContentsOf s b) k v) }

/-- `UpdateS3ErrorPage.error_key`: `target_prefix + "error_pages/404.html"`. -/
def error_key_of (target_pfx : String) : String :=
  target_pfx ++ "error_pages/404.html"

/-- `FakeAWS._perform_update_s3_routing_rules`. -/
def perform_update_s3_routing_rules (s : FakeAWSState) (bucket : String)
    (rules : RoutingRules) : FakeAWSState :=
  { s with routing_rules := setA s.routing_rules bucket rules }

/-- `FakeAWS._perform_update_s3_error_page`: read the old error key with
`.get`, always write the new one, and return the old key unless it equals the
new one. -/
def perform_update_s3_error_page (s : FakeAWSState) (bucket target_pfx : String) :
    FakeAWSState × Option String :=
  let new_error_key := error_key_of target_pfx
  let old_error_key := lookupA s.error_key bucket
  let s' := { s with error_key := setA s.error_key bucket new_error_key }
  if old_error_key = some new_error_key then (s', none) else (s', old_error_key)

/-- `FakeAWS._perform_create_cloudfront_invalidation`: append the intent to
the invalidation list. -/
def perform_create_cloudfront_invalidation (s : FakeAWSState) (cname : String)
    (paths : List String) : FakeAWSState :=
  { s with cloudfront_invalidations :=
      s.cloudfront_invalidations ++ [{ cname := cname, paths := paths }] }

/-- One `transform(['s3_buckets', bucket, key], discard)` step of
`FakeAWS._perform_delete_s3_keys`.  pyrsistent's `discard` leaves the state
value unchanged when the bucket or the key is absent. -/
def deleteBucketKey (s : FakeAWSState) (b k : String) : FakeAWSState :=
  match lookupA s.s3_buckets b with
  | none => s
  | some contents =>
    if hasKeyA contents k then
      { s with s3_buckets := setA s.s3_buckets b (removeA contents k) }
    else s

/-- `FakeAWS._perform_delete_s3_keys`: discard `prefix + key` for each key in
turn. -/
def perform_delete_s3_keys (s : FakeAWSState) (bucket pfx : String)
    (keys : List String) : FakeAWSState :=
  keys.foldl (fun st key => deleteBucketKey st bucket (pfx ++ key)) s

/-- The loop of `FakeAWS._perform_copy_s3_keys`: the source bucket contents
were read once before the loop; each key is copied verbatim into the
destination bucket, stopping at the first absent source key (`KeyError`). -/
def copyGo (srcContents : List (String × BucketValue)) (src_pfx dstBucket dst_pfx : String) :
    FakeAWSState → List String → FakeAWSState × Except AwsErr Unit
  | st, [] => (st, .ok ())
  | st, key :: rest =>
    match lookupA srcContents (src_pfx ++ key) with
    | none => (st, .error (.keyError (src_pfx ++ key)))
    | some v => copyGo srcContents src_pfx dstBucket dst_pfx
        (setBucketKey st dstBucket (dst_pfx ++ key) v) rest

/-- `FakeAWS._perform_copy_s3_keys`: `KeyError` if the source bucket is
absent, otherwise copy each `source_prefix + key` value verbatim to
`destination_prefix + key` in the destination bucket. -/
def perform_copy_s3_keys (s : FakeAWSState) (srcBucket src_pfx dstBucket dst_pfx : String)
    (keys : List String) : FakeAWSState × Except AwsErr Unit :=
  match lookupA s.s3_buckets srcBucket with
  | none => (s, .error (.keyError srcBucket))
  | some srcContents => copyGo srcContents src_pfx dstBucket dst_pfx s keys

/-- `FakeAWS._perform_list_s3_keys`: `KeyError` if the bucket is absent,
otherwise the keys starting with the prefix, with the prefix stripped. -/
def perform_list_s3_keys (s : FakeAWSState) (bucket pfx : String) :
    Except AwsErr (List String) :=
  match lookupA s.s3_buckets bucket with
  | none => .error (.keyError bucket)
  | some contents =>
    .ok (((contents.map Prod.fst).filter (fun key => startswith key pfx)).map
      (fun key => key.drop pfx.length))

/-- `FakeAWS._perform_download_s3_key`: `KeyError` if the bucket or the key is
absent, otherwise the content written (as a string) to the target path,
overwriting it. -/
def perform_download_s3_key (s : FakeAWSState) (srcBucket srcKey : String) :
    Except AwsErr String :=
  match lookupA s.s3_buckets srcBucket with
  | none => .error (.keyError srcBucket)
  | some contents =>
    match lookupA contents srcKey with
    | none => .error (.keyError srcKey)
    | some v => .ok v.text

/-- `perform_read_s3_key` (shared by both executor sets): download into a
scoped temporary file and return its content, so its observable result is
that of `DownloadS3Key`. -/
def perform_read_s3_key (s : FakeAWSState) (srcBucket srcKey : String) :
    Except AwsErr String :=
  perform_download_s3_key s srcBucket srcKey

/-- `FakeAWS._perform_upload_s3_key`: read the file content, tag it with the
content type when one is given, and store it under the target key. -/
def perform_upload_s3_key (s : FakeAWSState) (targetBucket targetKey file_content : String)
    (content_type : Option String) : FakeAWSState :=
  let content : BucketValue :=
    match content_type with
    | none => plainValue file_content
    | some ct => ContentTypeUnicode file_content ct
  setBucketKey s targetBucket targetKey content

/-- `EXTENSION_MIME_TYPES` from the source, in source order. -/
def EXTENSION_MIME_TYPES : List (String × String) :=
  [(".eot", "application/vnd.ms-fontobject"),
   (".gif", "image/gif"),
   (".html", "text/html"),
   (".jpg", "image/jpeg"),
   (".js", "application/javascript"),
   (".css", "text/css"),
   (".png", "image/png"),
   (".sh", "text/plain"),
   (".svg", "image/svg+xml"),
   (".ttf", "application/x-font-ttf"),
   (".txt", "text/plain"),
   (".woff", "application/font-woff"),
   (".yml", "text/plain")]

/-- Modelled from the spec: section 6's fixed extension-to-MIME table, entry
by entry as the spec lists it. -/
def spec_extension_mime_table : List (String × String) :=
  [(".eot", "application/vnd.ms-fontobject"),
   (".gif", "image/gif"),
   (".html", "text/html"),
   (".jpg", "image/jpeg"),
   (".js", "application/javascript"),
   (".css", "text/css"),
   (".png", "image/png"),
   (".sh", "text/plain"),
   (".svg", "image/svg+xml"),
   (".ttf", "application/x-font-ttf"),
   (".txt", "text/plain"),
   (".woff", "application/font-woff"),
   (".yml", "text/plain")]

/-- The Content-Type header chosen by the real `perform_copy_s3_keys` for one
key: the first table entry whose extension the key ends with, else the
source's inherited metadata value. -/
def copy_dest_content_type (source_meta : Option String) (key : String) : Option String :=
  match EXTENSION_MIME_TYPES.find? (fun p => endswith key p.1) with
  | some p => some p.2
  | none => source_meta

/-- Resolution of the relative segments of a key: empty and `.` segments are
skipped, `..` pops the last resolved segment and is an escape when nothing is
left to pop.  The accumulator holds the resolved segments in reverse. -/
def resolveRel (acc : List String) : List String → Option (List String)
  | [] => some acc
  | seg :: rest =>
    if seg = "" || seg = "." then resolveRel acc rest
    else if seg = ".." then
      match acc with
      | [] => none
      | _ :: acc' => resolveRel acc' rest
    else resolveRel (seg :: acc) rest

/-- Splitting a path string on `/` into segments (the separator-splitting
used when resolving a slashed key), by structural recursion over the
characters; the accumulator holds the current segment reversed. -/
def splitSegsAux : List Char → List Char → List String
  | acc, [] => [String.mk acc.reverse]
  | acc, ch :: rest =>
    if ch = '/' then String.mk acc.reverse :: splitSegsAux [] rest
    else splitSegsAux (ch :: acc) rest

/-- Split a string into its `/`-separated segments. -/
def splitSegs (s : String) : List String := splitSegsAux [] s.data

/-- Modelled from the spec: twisted's `FilePath.preauthChild`, the
path-resolution collaborator used by both composite operations and absent
from `src/`.  Per the spec it resolves the possibly-slashed key under the
base path and "must reject or fail on any path-escaping key name"; a path is
a list of segments and a rejected resolution is `none` (`InsecurePath`). -/
def preauthChild (base : List String) (key : String) : Option (List String) :=
  (resolveRel [] (splitSegs key)).map (fun rev => base ++ rev.reverse)

/-- The loop of `perform_download_s3_key_recursively` over the listed keys:
skip keys not ending in one of the filter extensions, resolve the key under
the target path, download `os.path.join(source_prefix, key)` to it.  Returns
the writes performed, in order, and the first error if one aborted the
loop. -/
def downloadRecGo (s : FakeAWSState) (srcBucket src_pfx : String)
    (targetPath : List String) (exts : List String) :
    List String → List (String × List String × String) × Option AwsErr
  | [] => ([], none)
  | key :: rest =>
    if exts.any (fun e => endswith key e) then
      match preauthChild targetPath key with
      | none => ([], some (.insecurePath key))
      | some path =>
        match perform_download_s3_key s srcBucket (os_path_join src_pfx key) with
        | .error e => ([], some e)
        | .ok content =>
          let r := downloadRecGo s srcBucket src_pfx targetPath exts rest
          ((key, path, content) :: r.1, r.2)
    else downloadRecGo s srcBucket src_pfx targetPath exts rest

/-- `perform_download_s3_key_recursively` against the simulated backend: list
the keys under `source_prefix + "/"`, then run the download loop.  The
result is the list of files written, as (key, resolved path, content), plus
the first error if any. -/
def perform_download_s3_key_recursively (s : FakeAWSState) (srcBucket src_pfx : String)
    (targetPath : List String) (exts : List String) :
    List (String × List String × String) × Option AwsErr :=
  match perform_list_s3_keys s srcBucket (src_pfx ++ "/") with
  | .error e => ([], some e)
  | .ok keys => downloadRecGo s srcBucket src_pfx targetPath exts keys

/-- The loop of `perform_upload_s3_key_recursively`: resolve each relative
path against the source path, and issue an upload intent
`(target_key + "/" + child, resolved file)` for each child that is a regular
file; other children are skipped.  `isfile` is the filesystem collaborator:
the content of the regular file at a path, or `none`. -/
def uploadRecGo (isfile : List String → Option String) (sourcePath : List String)
    (targetKey : String) : List String → Except AwsErr (List (String × List String))
  | [] => .ok []
  | child :: rest =>
    match preauthChild sourcePath child with
    | none => .error (.insecurePath child)
    | some path =>
      match uploadRecGo isfile sourcePath targetKey rest with
      | .error e => .error e
      | .ok tail =>
        .ok (if (isfile path).isSome then (targetKey ++ "/" ++ child, path) :: tail else tail)

/-- `perform_upload_s3_key_recursively`: the `UploadToS3` intents issued for
the given relative paths, or the first resolution error. -/
def perform_upload_s3_key_recursively (isfile : List String → Option String)
    (sourcePath : List String) (targetBucket targetKey : String) (files : List String) :
    Except AwsErr (List (String × List String)) :=
  uploadRecGo isfile sourcePath targetKey files

/-- The commands the simulated executor set handles directly as state
transforms (the composite operations expand into these). -/
inductive AwsCommand where
  | updateRoutingRules (bucket : String) (rules : RoutingRules)
  | updateErrorPage (bucket target_pfx : String)
  | createInvalidation (cname : String) (paths : List String)
  | deleteKeys (bucket pfx : String) (keys : List String)
  | copyKeys (srcBucket src_pfx dstBucket dst_pfx : String) (keys : List String)
  | listKeys (bucket pfx : String)
  | downloadKey (srcBucket srcKey : String)
  | uploadKey (bucket key content : String) (content_type : Option String)

/-- The value returned to the dispatcher's caller by one executor. -/
inductive AwsOutput where
  | unit
  | optKey (k : Option String)
  | result (r : Except AwsErr Unit)
  | listing (l : Except AwsErr (List String))
  | contents (c : Except AwsErr String)
deriving DecidableEq

/-- One dispatch step of the simulated executor set: the successor snapshot
computed from the old one and the command, plus the returned value. -/
def stepState (s : FakeAWSState) (c : AwsCommand) : FakeAWSState × AwsOutput :=
  match c with
  | .updateRoutingRules b rr => (perform_update_s3_routing_rules s b rr, .unit)
  | .updateErrorPage b tp =>
    let r := perform_update_s3_error_page s b tp
    (r.1, .optKey r.2)
  | .createInvalidation cn ps => (perform_create_cloudfront_invalidation s cn ps, .unit)
  | .deleteKeys b pfx ks => (perform_delete_s3_keys s b pfx ks, .unit)
  | .copyKeys sb sp db dp ks =>
    let r := perform_copy_s3_keys s sb sp db dp ks
    (r.1, .result r.2)
  | .listKeys b pfx => (s, .listing (perform_list_s3_keys s b pfx))
  | .downloadKey sb sk => (s, .contents (perform_download_s3_key s sb sk))
  | .uploadKey b k content ct => (perform_upload_s3_key s b k content ct, .unit)

/-- The `FakeAWS` object: the current snapshot reference, rebound by each
state-changing executor, and the initial snapshot captured at construction,
which stays reachable separately. -/
structure FakeAWS where
  initial_state : FakeAWSState
  state : FakeAWSState
deriving DecidableEq

/-- Executing one command against a `FakeAWS`: compute the successor snapshot
from the current one and rebind the `state` reference to it. -/
def execCmd (a : FakeAWS) (c : AwsCommand) : FakeAWS × AwsOutput :=
  let r := stepState a.state c
  ({ a with state := r.1 }, r.2)

/-- The `fake_aws` constructor: build the initial state from the given
routing rules and buckets; `FakeAWS.__init__` records it as
`initial_state`. -/
def fake_aws (rr : List (String × RoutingRules))
    (buckets : List (String × List (String × BucketValue))) : FakeAWS :=
  let s : FakeAWSState :=
    { routing_rules := rr, s3_buckets := buckets, error_key := [],
      cloudfront_invalidations := [] }
  { initial_state := s, state := s }

/-- Whether bucket `b` of the snapshot binds key `k` (an absent bucket binds
nothing). -/
def bucketHasKey (s : FakeAWSState) (b k : String) : Bool :=
  match lookupA s.s3_buckets b with
  | none => false
  | some contents => hasKeyA contents k

/-- Test fixture: a snapshot whose bucket website already has an error key
differing from the one a publish would install. -/
def errorKeyState : FakeAWSState :=
  { routing_rules := [], s3_buckets := [], error_key := [("bucket", "old/404")],
    cloudfront_invalidations := [] }

/-- Test fixture: one bucket holding one plain key. -/
def oneKeyState : FakeAWSState :=
  { routing_rules := [], s3_buckets := [("b", [("k", plainValue "c")])],
    error_key := [], cloudfront_invalidations := [] }

/-- Test fixture: one bucket holding a stylesheet under a directory-like
key. -/
def recState : FakeAWSState :=
  { routing_rules := [], s3_buckets := [("b", [("d/f.css", plainValue "body")])],
    error_key := [], cloudfront_invalidations := [] }

/-- Test fixture: a source bucket holding one tagged stylesheet value. -/
def copyState : FakeAWSState :=
  { routing_rules := [],
    s3_buckets := [("src", [("p/a.css", ContentTypeUnicode "x" "text/css")])],
    error_key := [], cloudfront_invalidations := [] }

/-- Test fixture: a filesystem on which only `srcdir/x.txt` is a regular
file. -/
def demoFS : List String → Option String :=
  fun p => if p = ["srcdir", "x.txt"] then some "hello" else none

theorem lookupA_setA_self {α : Type} (m : List (String × α)) (k : String) (v : α) :
    lookupA (setA m k v) k = some v := by
  induction m with
  | nil => simp [setA, lookupA]
  | cons p rest ih =>
    by_cases h : p.1 = k
    · simp [setA, h, lookupA]
    · simp [setA, h, lookupA, ih]

theorem lookupA_setA_ne {α : Type} (m : List (String × α)) (k k' : String) (v : α)
    (h : k' ≠ k) : lookupA (setA m k v) k' = lookupA m k' := by
  induction m with
  | nil =>
    simp only [setA, lookupA]
    rw [if_neg (fun hc : k = k' => h hc.symm)]
  | cons p rest ih =>
    by_cases hp : p.1 = k
    · simp only [setA, hp, if_true, lookupA]
      simp only [if_neg (fun hc : k = k' => h hc.symm)]
    · simp only [setA, hp, if_false, lookupA]
      by_cases hk : p.1 = k'
      · simp [hk]
      · simp [hk, ih]

theorem map_fst_setA_indep {α : Type} (m : List (String × α)) (k : String) (v₁ v₂ : α) :
    (setA m k v₁).map Prod.fst = (setA m k v₂).map Prod.fst := by
  induction m with
  | nil => simp [setA]
  | cons p rest ih =>
    by_cases h : p.1 = k
    · simp [setA, h]
    · simp [setA, h, ih]

theorem mem_map_fst_setA {α : Type} (m : List (String × α)) (k : String) (v : α) :
    k ∈ (setA m k v).map Prod.fst := by
  induction m with
  | nil => simp [setA]
  | cons p rest ih =>
    by_cases h : p.1 = k
    · simp [setA, h]
    · simp only [setA, h, if_false, List.map_cons, List.mem_cons]
      exact Or.inr ih

theorem setA_self_of_lookup {α : Type} (m : List (String × α)) (k : String) (v : α)
    (h : lookupA m k = some v) : setA m k v = m := by
  induction m with
  | nil => simp [lookupA] at h
  | cons p rest ih =>
    by_cases hp : p.1 = k
    · have h2 : p.2 = v := by simpa [lookupA, hp] using h
      subst h2
      simp only [setA]
      rw [if_pos hp, ← hp]
    · simp only [lookupA, hp, if_false] at h
      simp [setA, hp, ih h]

theorem not_mem_map_fst_removeA {α : Type} (m : List (String × α)) (k : String) :
    k ∉ (removeA m k).map Prod.fst := by
  intro h
  rcases List.mem_map.mp h with ⟨p, hp, hfst⟩
  rcases List.mem_filter.mp hp with ⟨_, hne⟩
  rw [hfst] at hne
  simp at hne

theorem not_mem_map_fst_of_hasKeyA_false {α : Type} (m : List (String × α)) (k : String)
    (h : hasKeyA m k = false) : k ∉ m.map Prod.fst := by
  intro hmem
  rcases List.mem_map.mp hmem with ⟨p, hp, hfst⟩
  have hany : m.any (fun q => q.1 == k) = true :=
    List.any_eq_true.mpr ⟨p, hp, by rw [hfst]; exact beq_self_eq_true k⟩
  unfold hasKeyA at h
  rw [hany] at h
  exact Bool.noConfusion h

theorem string_drop_zero (s : String) : s.drop 0 = s := by
  rw [String.drop_eq]
  rfl

theorem hasKeyA_removeA {α : Type} (m : List (String × α)) (k : String) :
    hasKeyA (removeA m k) k = false := by
  rw [hasKeyA, List.any_eq_false]
  intro p hp
  have hne := (List.mem_filter.mp hp).2
  simp only [bne_iff_ne, ne_eq] at hne
  simp [hne]

theorem delete_noop (s : FakeAWSState) (b k : String) (h : bucketHasKey s b k = false) :
    deleteBucketKey s b k = s := by
  unfold deleteBucketKey
  cases hb : lookupA s.s3_buckets b with
  | none => rfl
  | some contents =>
    have h2 : hasKeyA contents k = false := by
      unfold bucketHasKey at h
      rw [hb] at h
      exact h
    simp [h2]

theorem deleteBucketKey_eq_of_mem (s : FakeAWSState) (b k : String)
    (contents : List (String × BucketValue))
    (hb : lookupA s.s3_buckets b = some contents) (hk : hasKeyA contents k = true) :
    deleteBucketKey s b k
      = { s with s3_buckets := setA s.s3_buckets b (removeA contents k) } := by
  unfold deleteBucketKey
  rw [hb]
  simp [hk]

theorem bucketHasKey_delete_false (s : FakeAWSState) (b k : String) :
    bucketHasKey (deleteBucketKey s b k) b k = false := by
  cases hb : lookupA s.s3_buckets b with
  | none =>
    have hno : bucketHasKey s b k = false := by
      unfold bucketHasKey
      rw [hb]
    rw [delete_noop s b k hno]
    exact hno
  | some contents =>
    by_cases hk : hasKeyA contents k = true
    · rw [deleteBucketKey_eq_of_mem s b k contents hb hk]
      unfold bucketHasKey
      simp only [lookupA_setA_self]
      exact hasKeyA_removeA contents k
    · have hno : bucketHasKey s b k = false := by
        unfold bucketHasKey
        rw [hb]
        simpa using hk
      rw [delete_noop s b k hno]
      exact hno

theorem not_mem_strip_empty (keys : List String) (k : String) (hk : k ∉ keys) :
    k ∉ (keys.filter (fun key => startswith key "")).map
      (fun key => key.drop ("" : String).length) := by
  intro h
  rcases List.mem_map.mp h with ⟨key, hkey, heq⟩
  have hmem : key ∈ keys := (List.mem_filter.mp hkey).1
  rw [show ("" : String).length = 0 from rfl, string_drop_zero] at heq
  exact hk (heq ▸ hmem)

theorem lookupA_setBucketKey_self (s : FakeAWSState) (b k : String) (v : BucketValue) :
    lookupA (bucketContentsOf (setBucketKey s b k v) b) k = some v := by
  unfold setBucketKey bucketContentsOf
  simp only [lookupA_setA_self, Option.getD_some]

theorem lookupA_setBucketKey_ne (s : FakeAWSState) (b k : String) (v : BucketValue)
    (k0 : String) (h : k0 ≠ k) :
    lookupA (bucketContentsOf (setBucketKey s b k v) b) k0
      = lookupA (bucketContentsOf s b) k0 := by
  unfold setBucketKey bucketContentsOf
  simp only [lookupA_setA_self, Option.getD_some]
  exact lookupA_setA_ne _ _ _ _ h

theorem string_append_left_cancel {a b c : String} (h : a ++ b = a ++ c) : b = c := by
  have hd := congrArg String.data h
  rw [String.data_append, String.data_append] at hd
  have h2 := List.append_cancel_left hd
  exact congrArg String.mk h2

/-- C1: round-trip through the simulated backend.  For every snapshot, bucket
`b`, key `k` and text content `c`, after `UploadKey(targetBucket = b,
targetKey = k)` of a file containing `c`, `ListKeys(b, p)` for any prefix `p`
of `k` succeeds and includes `k` with `p` stripped, and `DownloadKey(b, k)`
writes exactly `c` to the target path. -/
theorem C1_upload_list_download_roundtrip (s : FakeAWSState) (b k c p : String)
    (hp : p.data <+: k.data) :
    (∃ L, perform_list_s3_keys (perform_upload_s3_key s b k c none) b p = .ok L ∧
      k.drop p.length ∈ L) ∧
    perform_download_s3_key (perform_upload_s3_key s b k c none) b k = .ok c := by
  have hbuck : lookupA (perform_upload_s3_key s b k c none).s3_buckets b
      = some (setA (bucketContentsOf s b) k (plainValue c)) := by
    unfold perform_upload_s3_key setBucketKey
    exact lookupA_setA_self _ _ _
  constructor
  · refine ⟨(((setA (bucketContentsOf s b) k (plainValue c)).map Prod.fst).filter
      (fun key => startswith key p)).map (fun key => key.drop p.length), ?_, ?_⟩
    · unfold perform_list_s3_keys
      rw [hbuck]
    · apply List.mem_map.mpr
      refine ⟨k, ?_, rfl⟩
      apply List.mem_filter.mpr
      exact ⟨mem_map_fst_setA _ _ _, decide_eq_true hp⟩
  · unfold perform_download_s3_key
    rw [hbuck]
    simp only [lookupA_setA_self]
    rfl

/-- C1 witness: the spec's concrete scenario, on an initially empty
simulation: upload `"<html/>"` to `docs / a/b.html`, list with prefix `a/`,
download the key back. -/
theorem C1_witness :
    (∃ L, perform_list_s3_keys
        (perform_upload_s3_key emptyState "docs" "a/b.html" "<html/>" none) "docs" "a/"
        = .ok L ∧ ("a/b.html" : String).drop ("a/" : String).length ∈ L) ∧
    perform_download_s3_key
      (perform_upload_s3_key emptyState "docs" "a/b.html" "<html/>" none) "docs" "a/b.html"
      = .ok "<html/>" :=
  C1_upload_list_download_roundtrip emptyState "docs" "a/b.html" "<html/>" "a/" (by decide)

/-- C2: snapshot immutability.  Executing any command replaces the `state`
reference of the `FakeAWS` object with the successor snapshot computed by the
executor, the held pre-execution snapshot's routing rules, bucket contents,
error keys and invalidation list are unchanged, and the initial snapshot is
never retroactively altered. -/
theorem C2_snapshot_immutability (a : FakeAWS) (c : AwsCommand) (held : FakeAWSState)
    (h : held = a.state) :
    (execCmd a c).1.state = (stepState a.state c).1 ∧
    (execCmd a c).1.initial_state = a.initial_state ∧
    held.routing_rules = a.state.routing_rules ∧
    held.s3_buckets = a.state.s3_buckets ∧
    held.error_key = a.state.error_key ∧
    held.cloudfront_invalidations = a.state.cloudfront_invalidations := by
  subst h
  exact ⟨rfl, rfl, rfl, rfl, rfl, rfl⟩

/-- C2 witness: the held initial snapshot of a fresh simulation is unchanged
by a `DeleteKeys` execution. -/
theorem C2_witness :
    ((execCmd (fake_aws [] [("b", [("k", plainValue "c")])])
        (.deleteKeys "b" "" ["k"])).1.state
      = (stepState (fake_aws [] [("b", [("k", plainValue "c")])]).state
          (.deleteKeys "b" "" ["k"])).1) ∧
    ((execCmd (fake_aws [] [("b", [("k", plainValue "c")])])
        (.deleteKeys "b" "" ["k"])).1.initial_state
      = (fake_aws [] [("b", [("k", plainValue "c")])]).initial_state) ∧
    (fake_aws [] [("b", [("k", plainValue "c")])]).state.routing_rules
      = (fake_aws [] [("b", [("k", plainValue "c")])]).state.routing_rules ∧
    (fake_aws [] [("b", [("k", plainValue "c")])]).state.s3_buckets
      = (fake_aws [] [("b", [("k", plainValue "c")])]).state.s3_buckets ∧
    (fake_aws [] [("b", [("k", plainValue "c")])]).state.error_key
      = (fake_aws [] [("b", [("k", plainValue "c")])]).state.error_key ∧
    (fake_aws [] [("b", [("k", plainValue "c")])]).state.cloudfront_invalidations
      = (fake_aws [] [("b", [("k", plainValue "c")])]).state.cloudfront_invalidations :=
  C2_snapshot_immutability (fake_aws [] [("b", [("k", plainValue "c")])])
    (.deleteKeys "b" "" ["k"]) (fake_aws [] [("b", [("k", plainValue "c")])]).state rfl

/-- C3 counterexample: on the empty snapshot (no error key recorded for the
bucket), `UpdateErrorPage` returns `none` although the new key does not equal
the bucket's existing error key, and the state does change — refuting
"returns none exactly when the new key equals the existing one, and in that
case makes no state change". -/
theorem C3_counterexample :
    (perform_update_s3_error_page emptyState "bucket" "v1/").2 = none ∧
    lookupA emptyState.error_key "bucket" ≠ some (error_key_of "v1/") ∧
    (perform_update_s3_error_page emptyState "bucket" "v1/").1 ≠ emptyState := by
  refine ⟨?_, ?_, ?_⟩ <;> decide

theorem update_error_page_eq_of_eq (s : FakeAWSState) (b tp : String)
    (hc : lookupA s.error_key b = some (error_key_of tp)) :
    perform_update_s3_error_page s b tp
      = ({ s with error_key := setA s.error_key b (error_key_of tp) }, none) := by
  simp only [perform_update_s3_error_page]
  rw [if_pos hc]

theorem update_error_page_eq_of_ne (s : FakeAWSState) (b tp : String)
    (hc : ¬ lookupA s.error_key b = some (error_key_of tp)) :
    perform_update_s3_error_page s b tp
      = ({ s with error_key := setA s.error_key b (error_key_of tp) },
          lookupA s.error_key b) := by
  simp only [perform_update_s3_error_page]
  rw [if_neg hc]

/-- C3 (amended): the simulated `UpdateErrorPage` returns `none` exactly when
the bucket's existing error key is absent or already equals the new key
`targetPrefix ++ "error_pages/404.html"`; when it already equals the new key
the snapshot is unchanged; it always sets `errorKeys[bucket]` to the new key;
when an existing key differs it returns that previous key; and a second call
with the same `targetPrefix` returns `none`. -/
theorem C3_update_error_page (s : FakeAWSState) (b tp : String) :
    ((perform_update_s3_error_page s b tp).2 = none ↔
      (lookupA s.error_key b = none ∨ lookupA s.error_key b = some (error_key_of tp))) ∧
    (lookupA s.error_key b = some (error_key_of tp) →
      (perform_update_s3_error_page s b tp).1 = s) ∧
    lookupA (perform_update_s3_error_page s b tp).1.error_key b = some (error_key_of tp) ∧
    (∀ old, lookupA s.error_key b = some old → old ≠ error_key_of tp →
      (perform_update_s3_error_page s b tp).2 = some old) ∧
    (perform_update_s3_error_page (perform_update_s3_error_page s b tp).1 b tp).2
      = none := by
  refine ⟨?_, ?_, ?_, ?_, ?_⟩
  · by_cases hc : lookupA s.error_key b = some (error_key_of tp)
    · rw [update_error_page_eq_of_eq s b tp hc]
      simp [hc]
    · rw [update_error_page_eq_of_ne s b tp hc]
      cases ho : lookupA s.error_key b with
      | none => simp
      | some x =>
        rw [ho] at hc
        constructor
        · intro hx
          cases hx
        · rintro (hx | hx)
          · cases hx
          · exact absurd hx hc
  · intro hc
    rw [update_error_page_eq_of_eq s b tp hc]
    show { s with error_key := setA s.error_key b (error_key_of tp) } = s
    rw [setA_self_of_lookup s.error_key b (error_key_of tp) hc]
  · by_cases hc : lookupA s.error_key b = some (error_key_of tp)
    · rw [update_error_page_eq_of_eq s b tp hc]
      exact lookupA_setA_self _ _ _
    · rw [update_error_page_eq_of_ne s b tp hc]
      exact lookupA_setA_self _ _ _
  · intro old hold hne
    have hc : ¬ lookupA s.error_key b = some (error_key_of tp) := by
      rw [hold]
      simpa using hne
    rw [update_error_page_eq_of_ne s b tp hc]
    exact hold
  · have h1 : lookupA (perform_update_s3_error_page s b tp).1.error_key b
        = some (error_key_of tp) := by
      by_cases hc : lookupA s.error_key b = some (error_key_of tp)
      · rw [update_error_page_eq_of_eq s b tp hc]
        exact lookupA_setA_self _ _ _
      · rw [update_error_page_eq_of_ne s b tp hc]
        exact lookupA_setA_self _ _ _
    rw [update_error_page_eq_of_eq _ b tp h1]

/-- C3 witness: a concrete run of the amended statement, on a snapshot whose
bucket already has a differing error key. -/
theorem C3_witness :
    ((perform_update_s3_error_page errorKeyState "bucket" "v1/").2 = none ↔
      (lookupA errorKeyState.error_key "bucket" = none ∨
        lookupA errorKeyState.error_key "bucket" = some (error_key_of "v1/"))) ∧
    (lookupA errorKeyState.error_key "bucket" = some (error_key_of "v1/") →
      (perform_update_s3_error_page errorKeyState "bucket" "v1/").1 = errorKeyState) ∧
    lookupA (perform_update_s3_error_page errorKeyState "bucket" "v1/").1.error_key
      "bucket" = some (error_key_of "v1/") ∧
    (∀ old, lookupA errorKeyState.error_key "bucket" = some old →
      old ≠ error_key_of "v1/" →
      (perform_update_s3_error_page errorKeyState "bucket" "v1/").2 = some old) ∧
    (perform_update_s3_error_page
      (perform_update_s3_error_page errorKeyState "bucket" "v1/").1 "bucket" "v1/").2
      = none :=
  C3_update_error_page errorKeyState "bucket" "v1/"

/-- C5 counterexample: the simulated `ListKeys` on a bucket absent from the
snapshot raises `KeyError` (the executor indexes `s3_buckets[bucket]`), it
does not return the empty set. -/
theorem C5_counterexample :
    perform_list_s3_keys emptyState "bucket" "" = .error (.keyError "bucket") := by
  decide

/-- C5 (amended): reading an absent bucket through the simulated `ListKeys`
fails with `KeyError` naming the bucket (rather than returning the empty
set), while reading an absent error key through `UpdateErrorPage` yields
`none` rather than an error. -/
theorem C5_absent_reads (s : FakeAWSState) (b pfx tp : String)
    (h1 : lookupA s.s3_buckets b = none) (h2 : lookupA s.error_key b = none) :
    perform_list_s3_keys s b pfx = .error (.keyError b) ∧
    (perform_update_s3_error_page s b tp).2 = none := by
  constructor
  · unfold perform_list_s3_keys
    rw [h1]
  · unfold perform_update_s3_error_page
    rw [h2]
    simp

/-- C5 witness: the amended statement on the empty snapshot. -/
theorem C5_witness :
    perform_list_s3_keys emptyState "b" "x/" = .error (.keyError "b") ∧
    (perform_update_s3_error_page emptyState "b" "v1/").2 = none :=
  C5_absent_reads emptyState "b" "x/" "v1/" rfl rfl

/-- C6: the simulated `DownloadKey` fails (with `KeyError`) exactly when the
source key is absent from the source bucket's mapping (an absent bucket
having the empty mapping); when the key is present it writes exactly the
stored content text to the target path (overwriting it); and in both
outcomes the snapshot is unchanged. -/
theorem C6_download_key (s : FakeAWSState) (b k : String) :
    ((∃ e, perform_download_s3_key s b k = .error e) ↔
      lookupA (bucketContentsOf s b) k = none) ∧
    (∀ v, lookupA (bucketContentsOf s b) k = some v →
      perform_download_s3_key s b k = .ok v.text) ∧
    (stepState s (.downloadKey b k)).1 = s := by
  refine ⟨?_, ?_, rfl⟩
  · unfold perform_download_s3_key bucketContentsOf
    cases hb : lookupA s.s3_buckets b with
    | none => simp [lookupA]
    | some contents =>
      cases hk : lookupA contents k with
      | none => simp [hk]
      | some v => simp [hk]
  · intro v hv
    unfold bucketContentsOf at hv
    cases hb : lookupA s.s3_buckets b with
    | none =>
      rw [hb] at hv
      simp [lookupA] at hv
    | some contents =>
      rw [hb] at hv
      simp only [Option.getD_some] at hv
      unfold perform_download_s3_key
      rw [hb]
      simp [hv]

/-- C6 witness: concrete download of a present key. -/
theorem C6_witness :
    ((∃ e, perform_download_s3_key oneKeyState "b" "k" = .error e) ↔
      lookupA (bucketContentsOf oneKeyState "b") "k" = none) ∧
    (∀ v, lookupA (bucketContentsOf oneKeyState "b") "k" = some v →
      perform_download_s3_key oneKeyState "b" "k" = .ok v.text) ∧
    (stepState oneKeyState (.downloadKey "b" "k")).1 = oneKeyState :=
  C6_download_key oneKeyState "b" "k"

/-- C7: simulated `DeleteKeys` semantics.  With the bucket present, deleting
`[k]` (empty prefix) makes a subsequent `ListKeys` with the empty prefix
exclude `k`; deleting a key the bucket does not hold leaves the snapshot
value unchanged (a no-op, never an error); and running the same `DeleteKeys`
twice yields the same snapshot as running it once. -/
theorem C7_delete_keys (s : FakeAWSState) (b k : String)
    (hb : (lookupA s.s3_buckets b).isSome) :
    (∃ L, perform_list_s3_keys (perform_delete_s3_keys s b "" [k]) b "" = .ok L ∧
      k ∉ L) ∧
    (∀ s2 : FakeAWSState, bucketHasKey s2 b k = false →
      perform_delete_s3_keys s2 b "" [k] = s2) ∧
    perform_delete_s3_keys (perform_delete_s3_keys s b "" [k]) b "" [k]
      = perform_delete_s3_keys s b "" [k] := by
  have hstep : ∀ s2 : FakeAWSState,
      perform_delete_s3_keys s2 b "" [k] = deleteBucketKey s2 b k := by
    intro s2
    rfl
  refine ⟨?_, ?_, ?_⟩
  · rw [hstep]
    cases hbv : lookupA s.s3_buckets b with
    | none =>
      rw [hbv] at hb
      cases hb
    | some contents =>
      by_cases hk : hasKeyA contents k = true
      · rw [deleteBucketKey_eq_of_mem s b k contents hbv hk]
        refine ⟨(((removeA contents k).map Prod.fst).filter
          (fun key => startswith key "")).map (fun key => key.drop ("" : String).length),
          ?_, ?_⟩
        · unfold perform_list_s3_keys
          simp only [lookupA_setA_self]
        · exact not_mem_strip_empty _ k (not_mem_map_fst_removeA contents k)
      · have hno : bucketHasKey s b k = false := by
          unfold bucketHasKey
          rw [hbv]
          simpa using hk
        rw [delete_noop s b k hno]
        refine ⟨((contents.map Prod.fst).filter
          (fun key => startswith key "")).map (fun key => key.drop ("" : String).length),
          ?_, ?_⟩
        · unfold perform_list_s3_keys
          rw [hbv]
        · refine not_mem_strip_empty _ k ?_
          apply not_mem_map_fst_of_hasKeyA_false
          simpa using hk
  · intro s2 h2
    rw [hstep]
    exact delete_noop s2 b k h2
  · rw [hstep, hstep]
    exact delete_noop _ b k (bucketHasKey_delete_false s b k)

/-- C7 witness: deleting the only key of a one-key bucket, listing excludes
it, the no-op case on the emptied snapshot, and idempotence. -/
theorem C7_witness :
    (∃ L, perform_list_s3_keys (perform_delete_s3_keys oneKeyState "b" "" ["k"]) "b" ""
      = .ok L ∧ "k" ∉ L) ∧
    (∀ s2 : FakeAWSState, bucketHasKey s2 "b" "k" = false →
      perform_delete_s3_keys s2 "b" "" ["k"] = s2) ∧
    perform_delete_s3_keys (perform_delete_s3_keys oneKeyState "b" "" ["k"]) "b" "" ["k"]
      = perform_delete_s3_keys oneKeyState "b" "" ["k"] :=
  C7_delete_keys oneKeyState "b" "k" (by decide)

theorem copyGo_ok (srcContents : List (String × BucketValue)) (sp dB dp : String)
    (st : FakeAWSState) (keys : List String)
    (h : ∀ key ∈ keys, (lookupA srcContents (sp ++ key)).isSome) :
    (copyGo srcContents sp dB dp st keys).2 = .ok () := by
  induction keys generalizing st with
  | nil => rfl
  | cons key rest ih =>
    have hk := h key (List.mem_cons_self key rest)
    cases hv : lookupA srcContents (sp ++ key) with
    | none =>
      rw [hv] at hk
      cases hk
    | some v =>
      simp only [copyGo, hv]
      exact ih _ (fun k2 hk2 => h k2 (List.mem_cons_of_mem key hk2))

theorem copyGo_preserve (srcContents : List (String × BucketValue)) (sp dB dp : String)
    (st : FakeAWSState) (keys : List String) (k0 : String)
    (h : k0 ∉ keys.map (fun key => dp ++ key)) :
    lookupA (bucketContentsOf (copyGo srcContents sp dB dp st keys).1 dB) k0
      = lookupA (bucketContentsOf st dB) k0 := by
  induction keys generalizing st with
  | nil => rfl
  | cons key rest ih =>
    have hne : k0 ≠ dp ++ key := by
      intro hc
      exact h (List.mem_map.mpr ⟨key, List.mem_cons_self key rest, hc.symm⟩)
    have hrest : k0 ∉ rest.map (fun key => dp ++ key) := by
      intro hc
      rcases List.mem_map.mp hc with ⟨k3, hk3, heq⟩
      exact h (List.mem_map.mpr ⟨k3, List.mem_cons_of_mem key hk3, heq⟩)
    cases hv : lookupA srcContents (sp ++ key) with
    | none => simp only [copyGo, hv]
    | some v =>
      simp only [copyGo, hv]
      rw [ih _ hrest]
      exact lookupA_setBucketKey_ne st dB (dp ++ key) v k0 hne

theorem copyGo_writes (srcContents : List (String × BucketValue)) (sp dB dp : String)
    (st : FakeAWSState) (keys : List String)
    (h : ∀ key ∈ keys, (lookupA srcContents (sp ++ key)).isSome) :
    ∀ key ∈ keys,
      lookupA (bucketContentsOf (copyGo srcContents sp dB dp st keys).1 dB) (dp ++ key)
        = lookupA srcContents (sp ++ key) := by
  induction keys generalizing st with
  | nil =>
    intro key hk
    cases hk
  | cons key rest ih =>
    intro k2 hk2
    have hkhead := h key (List.mem_cons_self key rest)
    cases hv : lookupA srcContents (sp ++ key) with
    | none =>
      rw [hv] at hkhead
      cases hkhead
    | some v =>
      have htail : ∀ k3 ∈ rest, (lookupA srcContents (sp ++ k3)).isSome :=
        fun k3 hk3 => h k3 (List.mem_cons_of_mem key hk3)
      simp only [copyGo, hv]
      rcases List.mem_cons.mp hk2 with rfl | hmem
      · by_cases hin : (dp ++ k2) ∈ rest.map (fun kk => dp ++ kk)
        · rcases List.mem_map.mp hin with ⟨k3, hk3, heq⟩
          have hk32 : k3 = k2 := string_append_left_cancel heq
          subst hk32
          exact ih _ htail k3 hk3
        · rw [copyGo_preserve srcContents sp dB dp _ rest (dp ++ k2) hin]
          rw [lookupA_setBucketKey_self st dB (dp ++ k2) v]
          exact hv.symm
      · exact ih _ htail k2 hmem

theorem endswith_css_selects (source_meta : Option String) (key : String)
    (h : endswith key ".css" = true) :
    copy_dest_content_type source_meta key = some "text/css" := by
  have hcss : ".css".data <:+ key.data := of_decide_eq_true h
  have heot : endswith key ".eot" = false := by
    apply decide_eq_false
    intro hs
    have h2 : (".eot" : String).data <:+ (".css" : String).data :=
      List.suffix_of_suffix_length_le hs hcss (by decide)
    exact absurd h2 (by decide)
  have hgif : endswith key ".gif" = false := by
    apply decide_eq_false
    intro hs
    have h2 : (".gif" : String).data <:+ (".css" : String).data :=
      List.suffix_of_suffix_length_le hs hcss (by decide)
    exact absurd h2 (by decide)
  have hhtml : endswith key ".html" = false := by
    apply decide_eq_false
    intro hs
    have h2 : (".css" : String).data <:+ (".html" : String).data :=
      List.suffix_of_suffix_length_le hcss hs (by decide)
    exact absurd h2 (by decide)
  have hjpg : endswith key ".jpg" = false := by
    apply decide_eq_false
    intro hs
    have h2 : (".jpg" : String).data <:+ (".css" : String).data :=
      List.suffix_of_suffix_length_le hs hcss (by decide)
    exact absurd h2 (by decide)
  have hjs : endswith key ".js" = false := by
    apply decide_eq_false
    intro hs
    have h2 : (".js" : String).data <:+ (".css" : String).data :=
      List.suffix_of_suffix_length_le hs hcss (by decide)
    exact absurd h2 (by decide)
  unfold copy_dest_content_type EXTENSION_MIME_TYPES
  rw [List.find?_cons_of_neg _ (by simpa using heot),
    List.find?_cons_of_neg _ (by simpa using hgif),
    List.find?_cons_of_neg _ (by simpa using hhtml),
    List.find?_cons_of_neg _ (by simpa using hjpg),
    List.find?_cons_of_neg _ (by simpa using hjs),
    List.find?_cons_of_pos _ (by simpa using h)]

/-- C4: `CopyKeys` backend asymmetry.  The simulated executor copies each
stored value verbatim (the whole value, including any content-type tag it
already carries, with no retagging) from `sourcePrefix+key` of the source
bucket, as read before the loop, to `destinationPrefix+key` of the
destination bucket; the real executor's destination Content-Type header is
the MIME type of the first matching extension of the fixed table — so a key
ending in `.css` gets `text/css` — and is left as the inherited source
metadata when no extension matches; and the code's table is exactly the
thirteen entries of the spec's section 6. -/
theorem C4_copy_keys_asymmetry (s : FakeAWSState) (srcB sp dstB dp : String)
    (keys : List String) (srcContents : List (String × BucketValue))
    (hsrc : lookupA s.s3_buckets srcB = some srcContents)
    (hkeys : ∀ key ∈ keys, (lookupA srcContents (sp ++ key)).isSome) :
    (perform_copy_s3_keys s srcB sp dstB dp keys).2 = .ok () ∧
    (∀ key ∈ keys,
      lookupA (bucketContentsOf (perform_copy_s3_keys s srcB sp dstB dp keys).1 dstB)
        (dp ++ key) = lookupA srcContents (sp ++ key)) ∧
    EXTENSION_MIME_TYPES = spec_extension_mime_table ∧
    EXTENSION_MIME_TYPES.length = 13 ∧
    (∀ source_meta key, endswith key ".css" = true →
      copy_dest_content_type source_meta key = some "text/css") ∧
    (∀ source_meta key, (∀ p ∈ EXTENSION_MIME_TYPES, endswith key p.1 = false) →
      copy_dest_content_type source_meta key = source_meta) := by
  refine ⟨?_, ?_, rfl, rfl, ?_, ?_⟩
  · unfold perform_copy_s3_keys
    rw [hsrc]
    exact copyGo_ok srcContents sp dstB dp s keys hkeys
  · unfold perform_copy_s3_keys
    rw [hsrc]
    exact copyGo_writes srcContents sp dstB dp s keys hkeys
  · exact endswith_css_selects
  · intro source_meta key hnone
    unfold copy_dest_content_type
    rw [List.find?_eq_none.mpr (fun p hp => by simp [hnone p hp])]

/-- C4 witness: copying one `.css` key between buckets, plus the two
content-type facts at the same key. -/
theorem C4_witness :
    (perform_copy_s3_keys copyState "src" "p/" "dst" "q/" ["a.css"]).2 = .ok () ∧
    (∀ key ∈ ["a.css"],
      lookupA (bucketContentsOf
        (perform_copy_s3_keys copyState "src" "p/" "dst" "q/" ["a.css"]).1 "dst")
        ("q/" ++ key)
        = lookupA [("p/a.css", ContentTypeUnicode "x" "text/css")] ("p/" ++ key)) ∧
    EXTENSION_MIME_TYPES = spec_extension_mime_table ∧
    EXTENSION_MIME_TYPES.length = 13 ∧
    (∀ source_meta key, endswith key ".css" = true →
      copy_dest_content_type source_meta key = some "text/css") ∧
    (∀ source_meta key, (∀ p ∈ EXTENSION_MIME_TYPES, endswith key p.1 = false) →
      copy_dest_content_type source_meta key = source_meta) :=
  C4_copy_keys_asymmetry copyState "src" "p/" "dst" "q/" ["a.css"]
    [("p/a.css", ContentTypeUnicode "x" "text/css")] (by decide) (by decide)

theorem preauthChild_under (base : List String) (key : String) (path : List String)
    (h : preauthChild base key = some path) : base <+: path := by
  unfold preauthChild at h
  cases hr : resolveRel [] (splitSegs key) with
  | none =>
    rw [hr] at h
    cases h
  | some rev =>
    rw [hr] at h
    simp only [Option.map_some'] at h
    injection h with h2
    rw [← h2]
    exact ⟨rev.reverse, rfl⟩

theorem downloadRecGo_writes (s : FakeAWSState) (srcB sp : String)
    (targetPath : List String) (exts : List String) (keys : List String) :
    ∀ w ∈ (downloadRecGo s srcB sp targetPath exts keys).1,
      w.1 ∈ keys ∧ exts.any (fun e => endswith w.1 e) = true ∧
      preauthChild targetPath w.1 = some w.2.1 ∧
      perform_download_s3_key s srcB (os_path_join sp w.1) = .ok w.2.2 := by
  induction keys with
  | nil =>
    intro w hw
    cases hw
  | cons key rest ih =>
    intro w hw
    by_cases hf : exts.any (fun e => endswith key e) = true
    · rw [downloadRecGo, if_pos hf] at hw
      cases hpc : preauthChild targetPath key with
      | none =>
        rw [hpc] at hw
        cases hw
      | some path =>
        rw [hpc] at hw
        cases hdl : perform_download_s3_key s srcB (os_path_join sp key) with
        | error e =>
          rw [hdl] at hw
          cases hw
        | ok content =>
          rw [hdl] at hw
          rcases List.mem_cons.mp hw with rfl | hmem
          · exact ⟨List.mem_cons_self key rest, hf, hpc, hdl⟩
          · have hr := ih w hmem
            exact ⟨List.mem_cons_of_mem key hr.1, hr.2⟩
    · rw [downloadRecGo, if_neg hf] at hw
      have hr := ih w hw
      exact ⟨List.mem_cons_of_mem key hr.1, hr.2⟩

theorem downloadRecGo_fails_on_escape (s : FakeAWSState) (srcB sp : String)
    (targetPath : List String) (exts : List String) (keys : List String)
    (h : ∃ key ∈ keys, exts.any (fun e => endswith key e) = true ∧
      preauthChild targetPath key = none) :
    (downloadRecGo s srcB sp targetPath exts keys).2 ≠ none := by
  induction keys with
  | nil =>
    rcases h with ⟨key, hk, _⟩
    cases hk
  | cons key rest ih =>
    rcases h with ⟨k2, hk2, hfilt, hesc⟩
    rcases List.mem_cons.mp hk2 with rfl | hmem
    · rw [downloadRecGo, if_pos hfilt, hesc]
      simp
    · by_cases hf : exts.any (fun e => endswith key e) = true
      · rw [downloadRecGo, if_pos hf]
        cases hpc : preauthChild targetPath key with
        | none => simp
        | some path =>
          cases hdl : perform_download_s3_key s srcB (os_path_join sp key) with
          | error e => simp
          | ok content =>
            simpa using ih ⟨k2, hmem, hfilt, hesc⟩
      · rw [downloadRecGo, if_neg hf]
        exact ih ⟨k2, hmem, hfilt, hesc⟩

/-- C8: `DownloadKeysRecursive` safety and filtering.  Every file it writes
corresponds to a key obtained by listing under `sourcePrefix + "/"`, ends
with one of the filter extensions, resolves under the target path (the
resolved path extends `targetPath`), and holds exactly the downloaded
content of `os.path.join(sourcePrefix, key)`; and whenever a listed,
filter-passing key's resolution would escape the target path the operation
fails. -/
theorem C8_download_recursive_safety (s : FakeAWSState) (srcB sp : String)
    (targetPath : List String) (exts : List String) :
    (∀ w ∈ (perform_download_s3_key_recursively s srcB sp targetPath exts).1,
      (∃ listed, perform_list_s3_keys s srcB (sp ++ "/") = .ok listed ∧ w.1 ∈ listed) ∧
      exts.any (fun e => endswith w.1 e) = true ∧
      preauthChild targetPath w.1 = some w.2.1 ∧
      targetPath <+: w.2.1 ∧
      perform_download_s3_key s srcB (os_path_join sp w.1) = .ok w.2.2) ∧
    (∀ listed, perform_list_s3_keys s srcB (sp ++ "/") = .ok listed →
      (∃ key ∈ listed, exts.any (fun e => endswith key e) = true ∧
        preauthChild targetPath key = none) →
      (perform_download_s3_key_recursively s srcB sp targetPath exts).2 ≠ none) := by
  cases hls : perform_list_s3_keys s srcB (sp ++ "/") with
  | error e =>
    constructor
    · intro w hw
      rw [perform_download_s3_key_recursively, hls] at hw
      cases hw
    · intro listed hl
      cases hl
  | ok keys =>
    constructor
    · intro w hw
      rw [perform_download_s3_key_recursively, hls] at hw
      have hr := downloadRecGo_writes s srcB sp targetPath exts keys w hw
      exact ⟨⟨keys, rfl, hr.1⟩, hr.2.1, hr.2.2.1,
        preauthChild_under targetPath w.1 w.2.1 hr.2.2.1, hr.2.2.2⟩
    · intro listed hl hesc
      cases hl
      rw [perform_download_s3_key_recursively, hls]
      exact downloadRecGo_fails_on_escape s srcB sp targetPath exts keys hesc

/-- C8 witness: downloading a `.css` key recursively from a one-key bucket,
checked at the single write it performs. -/
theorem C8_witness :
    (∃ listed, perform_list_s3_keys recState "b" ("d" ++ "/") = .ok listed ∧
      ("f.css", (["t", "f.css"] : List String), "body").1 ∈ listed) ∧
    [".css"].any (fun e => endswith ("f.css", (["t", "f.css"] : List String), "body").1 e)
      = true ∧
    preauthChild ["t"] ("f.css", (["t", "f.css"] : List String), "body").1
      = some ("f.css", (["t", "f.css"] : List String), "body").2.1 ∧
    ["t"] <+: ("f.css", (["t", "f.css"] : List String), "body").2.1 ∧
    perform_download_s3_key recState "b"
      (os_path_join "d" ("f.css", (["t", "f.css"] : List String), "body").1)
      = .ok ("f.css", (["t", "f.css"] : List String), "body").2.2 :=
  (C8_download_recursive_safety recState "b" "d" ["t"] [".css"]).1
    ("f.css", ["t", "f.css"], "body") (by decide)

/-- C9: `UploadKeysRecursive`.  When every relative path resolves under the
source path, the issued uploads are exactly those for the entries denoting a
regular file, each with target key `targetKey ++ "/" ++ child` and the
resolved file path; entries that are not regular files are silently skipped
and the operation succeeds. -/
theorem C9_upload_recursive (isfile : List String → Option String)
    (sourcePath : List String) (targetBucket targetKey : String) (files : List String)
    (h : ∀ child ∈ files, (preauthChild sourcePath child).isSome) :
    perform_upload_s3_key_recursively isfile sourcePath targetBucket targetKey files =
      .ok (files.filterMap (fun child =>
        (preauthChild sourcePath child).bind (fun path =>
          if (isfile path).isSome then some (targetKey ++ "/" ++ child, path)
          else none))) := by
  unfold perform_upload_s3_key_recursively
  induction files with
  | nil => rfl
  | cons child rest ih =>
    have hc := h child (List.mem_cons_self child rest)
    cases hpc : preauthChild sourcePath child with
    | none =>
      rw [hpc] at hc
      cases hc
    | some path =>
      rw [uploadRecGo, hpc]
      rw [ih (fun c2 hc2 => h c2 (List.mem_cons_of_mem child hc2))]
      rw [List.filterMap_cons, hpc]
      by_cases hf : (isfile path).isSome
      · simp [hf]
      · simp [hf]

/-- C9 witness: the spec's concrete scenario — of `x.txt` and `sub/y.txt`
only `x.txt` is a regular file; only it is uploaded and the operation
succeeds. -/
theorem C9_witness :
    perform_upload_s3_key_recursively demoFS ["srcdir"] "bucket" "tk"
      ["x.txt", "sub/y.txt"] =
      .ok ((["x.txt", "sub/y.txt"] : List String).filterMap (fun child =>
        (preauthChild ["srcdir"] child).bind (fun path =>
          if (demoFS path).isSome then some ("tk" ++ "/" ++ child, path)
          else none))) :=
  C9_upload_recursive demoFS ["srcdir"] "bucket" "tk" ["x.txt", "sub/y.txt"] (by decide)

theorem download_eq_of_bucket (s : FakeAWSState) (b k2 : String)
    (contents : List (String × BucketValue))
    (hb : lookupA s.s3_buckets b = some contents) :
    perform_download_s3_key s b k2 = (match lookupA contents k2 with
      | none => .error (.keyError k2)
      | some v => .ok v.text) := by
  unfold perform_download_s3_key
  rw [hb]

theorem list_eq_of_bucket (s : FakeAWSState) (b pfx2 : String)
    (contents : List (String × BucketValue))
    (hb : lookupA s.s3_buckets b = some contents) :
    perform_list_s3_keys s b pfx2 = .ok (((contents.map Prod.fst).filter
      (fun key => startswith key pfx2)).map (fun key => key.drop pfx2.length)) := by
  unfold perform_list_s3_keys
  rw [hb]

/-- C10: content-type tagging is invisible to content equality.  Uploading
with a content type stores a `ContentTypeUnicode` wrapping the file's text,
whose text equals the untagged content; `ListKeys`, `DownloadKey` and
`ReadKey` observations after a tagged upload coincide with those after an
untagged upload of the same content; and the content type is recoverable
from the stored value's `content_type` field. -/
theorem C10_content_type_invisible (s : FakeAWSState) (b k c ct : String) :
    lookupA (bucketContentsOf (perform_upload_s3_key s b k c (some ct)) b) k
      = some (ContentTypeUnicode c ct) ∧
    (ContentTypeUnicode c ct).text = (plainValue c).text ∧
    (∀ pfx2, perform_list_s3_keys (perform_upload_s3_key s b k c none) b pfx2
      = perform_list_s3_keys (perform_upload_s3_key s b k c (some ct)) b pfx2) ∧
    (∀ k2, perform_download_s3_key (perform_upload_s3_key s b k c none) b k2
      = perform_download_s3_key (perform_upload_s3_key s b k c (some ct)) b k2) ∧
    (∀ k2, perform_read_s3_key (perform_upload_s3_key s b k c none) b k2
      = perform_read_s3_key (perform_upload_s3_key s b k c (some ct)) b k2) ∧
    (lookupA (bucketContentsOf (perform_upload_s3_key s b k c (some ct)) b) k).map
      BucketValue.content_type = some (some ct) := by
  have e1 : lookupA (perform_upload_s3_key s b k c none).s3_buckets b
      = some (setA (bucketContentsOf s b) k (plainValue c)) := by
    unfold perform_upload_s3_key setBucketKey
    exact lookupA_setA_self _ _ _
  have e2 : lookupA (perform_upload_s3_key s b k c (some ct)).s3_buckets b
      = some (setA (bucketContentsOf s b) k (ContentTypeUnicode c ct)) := by
    unfold perform_upload_s3_key setBucketKey
    exact lookupA_setA_self _ _ _
  have hset : lookupA (bucketContentsOf (perform_upload_s3_key s b k c (some ct)) b) k
      = some (ContentTypeUnicode c ct) :=
    lookupA_setBucketKey_self s b k (ContentTypeUnicode c ct)
  have hdownload : ∀ k2,
      perform_download_s3_key (perform_upload_s3_key s b k c none) b k2
        = perform_download_s3_key (perform_upload_s3_key s b k c (some ct)) b k2 := by
    intro k2
    rw [download_eq_of_bucket _ b k2 _ e1, download_eq_of_bucket _ b k2 _ e2]
    by_cases hk : k2 = k
    · subst hk
      rw [lookupA_setA_self, lookupA_setA_self]
      rfl
    · rw [lookupA_setA_ne _ _ _ _ hk, lookupA_setA_ne _ _ _ _ hk]
  refine ⟨hset, rfl, ?_, hdownload, ?_, ?_⟩
  · intro pfx2
    rw [list_eq_of_bucket _ b pfx2 _ e1, list_eq_of_bucket _ b pfx2 _ e2]
    rw [map_fst_setA_indep (bucketContentsOf s b) k (plainValue c) (ContentTypeUnicode c ct)]
  · intro k2
    unfold perform_read_s3_key
    exact hdownload k2
  · rw [hset]
    rfl
